import Mathlib

/-!
Shallow embedding of the measurement-arithmetic, histogram-transform and
significance-statistics core of rootls (src/rootutils/rootutils.py).

Python floats are modelled as real numbers.  Python's
try/except ZeroDivisionError handlers that define a result as 0 are
modelled by explicit if-guards on the divisor being 0.  In-place
histogram mutators are modelled as functions returning the new histogram
state.  Special functions delegated to the host framework
(ROOT.Math.inc_gamma_c, TMath.ErfInverse, TH1.FindBin) are taken as
function parameters, since they are external to this repository.
-/

namespace Rootls

/-- Measurement value with propagated error (class Value, rootutils.py:36-39). -/
structure Value where
  mean : ℝ
  error : ℝ

/-- Value.__add__ (rootutils.py:71-74): mean sum, errors in quadrature. -/
noncomputable def vadd (a b : Value) : Value :=
  ⟨a.mean + b.mean, Real.sqrt (a.error ^ 2 + b.error ^ 2)⟩

/-- Value.__sub__ (rootutils.py:76-79): mean difference, errors in quadrature. -/
noncomputable def vsub (a b : Value) : Value :=
  ⟨a.mean - b.mean, Real.sqrt (a.error ^ 2 + b.error ^ 2)⟩

/-- Value.__mul__ on two Values (rootutils.py:81-92).  The
except ZeroDivisionError handler sets error to 0 when either mean is 0. -/
noncomputable def vmul (a b : Value) : Value :=
  ⟨a.mean * b.mean,
   if a.mean = 0 ∨ b.mean = 0 then 0
   else a.mean * b.mean *
     Real.sqrt ((a.error / a.mean) ^ 2 + (b.error / b.mean) ^ 2)⟩

/-- Value.__div__ (rootutils.py:94-104).  The first handler sets mean to 0
when the divisor mean is 0; the second sets error to 0 when either mean is 0. -/
noncomputable def vdiv (a b : Value) : Value :=
  ⟨if b.mean = 0 then 0 else a.mean / b.mean,
   if a.mean = 0 ∨ b.mean = 0 then 0
   else (if b.mean = 0 then 0 else a.mean / b.mean) *
     Real.sqrt ((a.error / a.mean) ^ 2 + (b.error / b.mean) ^ 2)⟩

/-- Value.__gt__ (rootutils.py:47-51), Value-vs-Value branch. -/
def vgt (a b : Value) : Prop := a.mean > b.mean

/-- Value.__lt__ (rootutils.py:53-57), Value-vs-Value branch. -/
def vlt (a b : Value) : Prop := a.mean < b.mean

/-- Value.__ge__ (rootutils.py:59-63), Value-vs-Value branch.
The source compares with the strict operator: `self.mean > other.mean`. -/
def vge (a b : Value) : Prop := a.mean > b.mean

/-- Value.__le__ (rootutils.py:65-69), Value-vs-Value branch.
The source compares with the strict operator: `self.mean < other.mean`. -/
def vle (a b : Value) : Prop := a.mean < b.mean

/-- Value.__repr__ (rootutils.py:41-45), with the host float formatters
abstracted as fmt4 (4 decimal places) and fmt2 (2 decimal places).
The source tests the signed mean: `if self.mean < 0.01`. -/
noncomputable def value_repr (fmt4 fmt2 : ℝ → String) (v : Value) : String :=
  if v.mean < 0.01 then fmt4 v.mean ++ " +- " ++ fmt4 v.error
  else fmt2 v.mean ++ " +- " ++ fmt2 v.error

/-- One-dimensional binned histogram state: bin b of [1..nbins] holds content
and error; bin 0 is the underflow bin and bin nbins+1 the overflow bin. -/
structure Hist1 where
  nbins : ℕ
  content : ℕ → ℝ
  error : ℕ → ℝ

/-- Models TH1.Integral() over the addressable range [1..nbins] (host
framework). -/
noncomputable def integral (h : Hist1) : ℝ :=
  ∑ b ∈ Finset.Icc 1 h.nbins, h.content b

/-- Models TH1.Integral(b1, b2) over the bin range [b1..b2] (host
framework). -/
noncomputable def integralR (h : Hist1) (b1 b2 : ℕ) : ℝ :=
  ∑ b ∈ Finset.Icc b1 b2, h.content b

/-- Models TH1.Scale(s) (host framework, Sumw2 active): every bin content and
error is multiplied by s. -/
noncomputable def hscale (h : Hist1) (s : ℝ) : Hist1 :=
  ⟨h.nbins, fun b => h.content b * s, fun b => h.error b * s⟩

/-- Python truthiness of an optional float argument: None and 0.0 are falsy. -/
def truthy : Option ℝ → Prop
  | none => False
  | some v => v ≠ 0

open Classical in
/-- histogram_normalize_to (rootutils.py:219-228).  The sub-range branch is
guarded by `if xmin and xmax`, i.e. by Python truthiness of both arguments.
fb models the host framework's TH1.FindBin for each histogram.  Returns the
scale factor together with the new state of the first histogram. -/
noncomputable def histogram_normalize_to (fb : Hist1 → ℝ → ℕ)
    (h other : Hist1) (xmin xmax : Option ℝ) : ℝ × Hist1 :=
  let n1 := if truthy xmin ∧ truthy xmax then
      integralR h (fb h (xmin.getD 0)) (fb h (xmax.getD 0))
    else integral h
  let n2 := if truthy xmin ∧ truthy xmax then
      integralR other (fb other (xmin.getD 0)) (fb other (xmax.getD 0))
    else integral other
  let s := if n1 > 0 then n2 / n1 else 1
  (s, hscale h s)

/-- histogram_add_overflow_bin, 1-D branch (rootutils.py:294-308): fold the
overflow bin into the last bin, contents added, errors in quadrature. -/
noncomputable def histogram_add_overflow_bin (h : Hist1) : Hist1 :=
  ⟨h.nbins,
   fun b =>
     if b = h.nbins then h.content h.nbins + h.content (h.nbins + 1)
     else if b = h.nbins + 1 then 0
     else h.content b,
   fun b =>
     if b = h.nbins then
       Real.sqrt (h.error h.nbins ^ 2 + h.error (h.nbins + 1) ^ 2)
     else if b = h.nbins + 1 then 0
     else h.error b⟩

/-- histogram_scale with a given scale error (rootutils.py:313-341, the
branch where e_c is not None): for every bin in [1..nbins] the content
becomes content*c, and the error becomes newContent*sqrt((e/content)² +
(e_c/c)²), set to 0 by the except ZeroDivisionError handler when content
or c is 0. -/
noncomputable def histogram_scale (h : Hist1) (c e_c : ℝ) : Hist1 :=
  ⟨h.nbins,
   fun b =>
     if 1 ≤ b ∧ b ≤ h.nbins then h.content b * c else h.content b,
   fun b =>
     if 1 ≤ b ∧ b ≤ h.nbins then
       if h.content b = 0 ∨ c = 0 then 0
       else h.content b * c *
         Real.sqrt ((h.error b / h.content b) ^ 2 + (e_c / c) ^ 2)
     else h.error b⟩

/-- histogram_scale when c is a Value (rootutils.py:320-323 unpacks
c, e_c = c.mean, c.error). -/
noncomputable def histogram_scale_val (h : Hist1) (v : Value) : Hist1 :=
  histogram_scale h v.mean v.error

/-- Concrete 1-bin histogram 10 ± 1, for the C4 example. -/
noncomputable def exScale : Hist1 :=
  ⟨1, fun b => if b = 1 then 10 else 0, fun b => if b = 1 then 1 else 0⟩

/-- Concrete 3-bin histogram whose bin 3 is 10 ± 2 and overflow bin is
5 ± 1, for the C5 example. -/
noncomputable def exOverflow : Hist1 :=
  ⟨3, fun b => if b = 3 then 10 else if b = 4 then 5 else 0,
      fun b => if b = 3 then 2 else if b = 4 then 1 else 0⟩

/-- Concrete 1-bin histogram with content 2 ± 1 (positive integral). -/
noncomputable def exPos : Hist1 :=
  ⟨1, fun b => if b = 1 then 2 else 0, fun b => if b = 1 then 1 else 0⟩

/-- Concrete 1-bin histogram with all contents 0 (zero integral). -/
noncomputable def exZero : Hist1 :=
  ⟨1, fun _ => 0, fun b => if b = 1 then 1 else 0⟩

/-- Trivial stand-in for the host framework's FindBin, used where the
sub-range branch is not exercised. -/
def fb0 : Hist1 → ℝ → ℕ := fun _ _ => 0

/-- Two-dimensional binned histogram state: bin (x, y) of [1..nx] x [1..ny]
holds a content; bins outside that range are the under/overflow bins. -/
structure Hist2 where
  nx : ℕ
  ny : ℕ
  content : ℕ → ℕ → ℝ

/-- Models TH2.Integral(x1, x2, y1, y2) over the bin rectangle (host
framework). -/
noncomputable def integral2 (h : Hist2) (x1 x2 y1 y2 : ℕ) : ℝ :=
  ∑ x ∈ Finset.Icc x1 x2, ∑ y ∈ Finset.Icc y1 y2, h.content x y

/-- get_cumulative_histogram (rootutils.py:344-362): clone the histogram and
set every bin (bx, by) of [1..nx] x [1..ny] to a rectangle integral of the
source whose bounds depend on the inverse_x / inverse_y flags. -/
noncomputable def get_cumulative_histogram (h : Hist2)
    (inverse_x inverse_y : Bool) : Hist2 :=
  ⟨h.nx, h.ny, fun x y =>
    if 1 ≤ x ∧ x ≤ h.nx ∧ 1 ≤ y ∧ y ≤ h.ny then
      if inverse_x && inverse_y then integral2 h 1 x 1 y
      else if inverse_x then integral2 h 1 x y h.ny
      else if inverse_y then integral2 h x h.nx 1 y
      else integral2 h x h.nx y h.ny
    else h.content x y⟩

/-- Concrete 2x2 histogram with contents 1, 2, 3, 4, for C2. -/
noncomputable def exCum : Hist2 :=
  ⟨2, 2, fun x y =>
    if x = 1 ∧ y = 1 then 1
    else if x = 2 ∧ y = 1 then 2
    else if x = 1 ∧ y = 2 then 3
    else if x = 2 ∧ y = 2 then 4
    else 0⟩

/-- pvalue (rootutils.py:832-836); igc models ROOT.Math.inc_gamma_c, the
regularized upper incomplete gamma function of the host framework. -/
noncomputable def pvalue (igc : ℝ → ℝ → ℝ) (obs expd : ℝ) : ℝ :=
  if obs > expd then 1 - igc obs expd else igc (obs + 1) expd

/-- zvalue (rootutils.py:839-840); erfinv models ROOT.TMath.ErfInverse. -/
noncomputable def zvalue (erfinv : ℝ → ℝ) (p : ℝ) : ℝ :=
  Real.sqrt 2 * erfinv (1 - 0.2 * p)

/-- poisson_significance (rootutils.py:843-853). -/
noncomputable def poisson_significance (igc : ℝ → ℝ → ℝ) (erfinv : ℝ → ℝ)
    (obs expd : ℝ) : ℝ :=
  let p := pvalue igc obs expd
  if p < 0.5 then (if obs > expd then zvalue erfinv p else -zvalue erfinv p)
  else 0

/-- Constant stand-in for inc_gamma_c returning 0.9 (small p, obs > exp). -/
noncomputable def igcA : ℝ → ℝ → ℝ := fun _ _ => 0.9

/-- Constant stand-in for inc_gamma_c returning 0.2 (small p, obs <= exp). -/
noncomputable def igcB : ℝ → ℝ → ℝ := fun _ _ => 0.2

/-- Constant stand-in for inc_gamma_c returning 0.6 (p at least 0.5). -/
noncomputable def igcC : ℝ → ℝ → ℝ := fun _ _ => 0.6

/-- Stand-in 4-decimal float formatter. -/
def fmtA : ℝ → String := fun _ => "A"

/-- Stand-in 2-decimal float formatter. -/
def fmtB : ℝ → String := fun _ => "B"

end Rootls

namespace Rootls

/-- C1: add is mean-sum with quadrature error; sub is mean-difference with
the same quadrature error rule. -/
theorem add_sub_quadrature (a b : Value) :
    (vadd a b).mean = a.mean + b.mean ∧
    (vadd a b).error = Real.sqrt (a.error ^ 2 + b.error ^ 2) ∧
    (vsub a b).mean = a.mean - b.mean ∧
    (vsub a b).error = Real.sqrt (a.error ^ 2 + b.error ^ 2) :=
  ⟨rfl, rfl, rfl, rfl⟩

/-- C3: div with zero divisor mean returns mean 0, and in both mul and div a
zero mean appearing as a divisor of the relative-error combination makes the
resulting error 0. -/
theorem zero_mean_division_policy (a b : Value) :
    (b.mean = 0 → (vdiv a b).mean = 0) ∧
    (a.mean = 0 ∨ b.mean = 0 → (vmul a b).error = 0 ∧ (vdiv a b).error = 0) := by
  constructor
  · intro hb
    simp [vdiv, hb]
  · intro h
    constructor
    · simp [vmul, h]
    · simp [vdiv, h]

/-- Witness for C3 at a = 2 ± 1, b = 0 ± 3. -/
theorem zero_mean_division_policy_witness :
    (vdiv ⟨2, 1⟩ ⟨0, 3⟩).mean = 0 ∧ (vmul ⟨2, 1⟩ ⟨0, 3⟩).error = 0 ∧
    (vdiv ⟨2, 1⟩ ⟨0, 3⟩).error = 0 :=
  ⟨(zero_mean_division_policy ⟨2, 1⟩ ⟨0, 3⟩).1 rfl,
   (zero_mean_division_policy ⟨2, 1⟩ ⟨0, 3⟩).2 (Or.inr rfl)⟩

/-- C4: scaling a histogram by c ± e_c multiplies every bin content by c and
sets the bin error to newContent*sqrt((error/content)² + (errC/c)²), defined
as 0 when content or c is 0. -/
theorem scale_with_error (h : Hist1) (c e_c : ℝ) (b : ℕ)
    (hb1 : 1 ≤ b) (hb2 : b ≤ h.nbins) :
    (histogram_scale h c e_c).content b = h.content b * c ∧
    (histogram_scale h c e_c).error b =
      (if h.content b = 0 ∨ c = 0 then 0
       else h.content b * c *
         Real.sqrt ((h.error b / h.content b) ^ 2 + (e_c / c) ^ 2)) := by
  constructor <;> simp [histogram_scale, hb1, hb2]

/-- Witness for C4: the bin 10 ± 1 scaled by the Measurement 2 ± 0 becomes
20 with error 2. -/
theorem scale_with_error_witness :
    (histogram_scale_val exScale ⟨2, 0⟩).content 1 = 20 ∧
    (histogram_scale_val exScale ⟨2, 0⟩).error 1 = 2 := by
  have g := scale_with_error exScale 2 0 1 (by norm_num [exScale]) (by norm_num [exScale])
  constructor
  · show (histogram_scale exScale 2 0).content 1 = 20
    rw [g.1]
    norm_num [exScale]
  · show (histogram_scale exScale 2 0).error 1 = 2
    rw [g.2]
    have h10 : exScale.content 1 = 10 := by norm_num [exScale]
    have h1 : exScale.error 1 = 1 := by norm_num [exScale]
    rw [if_neg (by rw [h10]; norm_num), h10, h1]
    have hs : ((1 : ℝ) / 10) ^ 2 + ((0 : ℝ) / 2) ^ 2 = (1 / 10) ^ 2 := by
      norm_num
    rw [hs, Real.sqrt_sq (by norm_num : (0 : ℝ) ≤ 1 / 10)]
    norm_num

/-- C5: addOverflowBin folds the overflow bin into the last bin, contents
added and errors combined in quadrature, zeroing the overflow bin; on the
3-bin example with bin 3 = 10 ± 2 and overflow 5 ± 1, bin 3 becomes
15 ± sqrt 5 and the overflow bin becomes 0 ± 0. -/
theorem add_overflow_bin_folds :
    (∀ h : Hist1,
      (histogram_add_overflow_bin h).content h.nbins =
        h.content h.nbins + h.content (h.nbins + 1) ∧
      (histogram_add_overflow_bin h).error h.nbins =
        Real.sqrt (h.error h.nbins ^ 2 + h.error (h.nbins + 1) ^ 2) ∧
      (histogram_add_overflow_bin h).content (h.nbins + 1) = 0 ∧
      (histogram_add_overflow_bin h).error (h.nbins + 1) = 0) ∧
    (histogram_add_overflow_bin exOverflow).content 3 = 15 ∧
    (histogram_add_overflow_bin exOverflow).error 3 = Real.sqrt 5 ∧
    (histogram_add_overflow_bin exOverflow).content 4 = 0 ∧
    (histogram_add_overflow_bin exOverflow).error 4 = 0 := by
  constructor
  · intro h
    refine ⟨by simp [histogram_add_overflow_bin], by simp [histogram_add_overflow_bin],
      by simp [histogram_add_overflow_bin], by simp [histogram_add_overflow_bin]⟩
  · refine ⟨by norm_num [histogram_add_overflow_bin, exOverflow], ?_,
      by norm_num [histogram_add_overflow_bin, exOverflow],
      by norm_num [histogram_add_overflow_bin, exOverflow]⟩
    show (histogram_add_overflow_bin exOverflow).error 3 = Real.sqrt 5
    have : (histogram_add_overflow_bin exOverflow).error 3 =
        Real.sqrt ((2 : ℝ) ^ 2 + 1 ^ 2) := by
      norm_num [histogram_add_overflow_bin, exOverflow]
    rw [this]
    norm_num

/-- C6: normalizeTo over the full range returns s = integral(other)/integral(h)
and scales every bin of h by s when integral(h) > 0; when integral(h) = 0 it
returns 1.0 and leaves every bin of h unchanged. -/
theorem normalize_to_scale_factor (fb : Hist1 → ℝ → ℕ) (h other : Hist1) :
    (integral h > 0 →
      (histogram_normalize_to fb h other none none).1 =
        integral other / integral h ∧
      ∀ b, (histogram_normalize_to fb h other none none).2.content b =
            h.content b * (integral other / integral h) ∧
          (histogram_normalize_to fb h other none none).2.error b =
            h.error b * (integral other / integral h)) ∧
    (integral h = 0 →
      (histogram_normalize_to fb h other none none).1 = 1 ∧
      ∀ b, (histogram_normalize_to fb h other none none).2.content b =
            h.content b ∧
          (histogram_normalize_to fb h other none none).2.error b =
            h.error b) := by
  constructor
  · intro hpos
    refine ⟨?_, fun b => ⟨?_, ?_⟩⟩ <;>
      simp [histogram_normalize_to, truthy, hscale, hpos]
  · intro hz
    have hng : ¬ integral h > 0 := by rw [hz]; norm_num
    refine ⟨?_, fun b => ⟨?_, ?_⟩⟩ <;>
      simp [histogram_normalize_to, truthy, hscale, hng]

/-- Witness for C6 at concrete histograms: a positive-integral case
(integrals 2 and 10, factor 5) and a zero-integral case (factor 1,
bins untouched). -/
theorem normalize_to_scale_factor_witness :
    (histogram_normalize_to fb0 exPos exScale none none).1 = 5 ∧
    (histogram_normalize_to fb0 exPos exScale none none).2.content 1 = 10 ∧
    (histogram_normalize_to fb0 exZero exPos none none).1 = 1 ∧
    (histogram_normalize_to fb0 exZero exPos none none).2.error 1 = 1 := by
  have hip : integral exPos = 2 := by simp [integral, exPos]
  have his : integral exScale = 10 := by simp [integral, exScale]
  have hiz : integral exZero = 0 := by simp [integral, exZero]
  have gp := (normalize_to_scale_factor fb0 exPos exScale).1 (by rw [hip]; norm_num)
  have gz := (normalize_to_scale_factor fb0 exZero exPos).2 hiz
  refine ⟨?_, ?_, ?_, ?_⟩
  · rw [gp.1, hip, his]; norm_num
  · rw [(gp.2 1).1, hip, his]; norm_num [exPos]
  · exact gz.1
  · rw [(gz.2 1).2]; norm_num [exZero]

/-- C10: a range boundary equal to 0.0 is falsy in the `if xmin and xmax`
guard, so normalizeTo silently computes full-range integrals exactly as if
no range had been given. -/
theorem normalize_to_zero_boundary_full_range (fb : Hist1 → ℝ → ℕ)
    (h other : Hist1) (o : Option ℝ) :
    histogram_normalize_to fb h other (some 0) o =
      histogram_normalize_to fb h other none none ∧
    histogram_normalize_to fb h other o (some 0) =
      histogram_normalize_to fb h other none none := by
  constructor <;> simp [histogram_normalize_to, truthy]

/-- Helper: a sum over the bin range [1..2] is the sum of the two bins. -/
theorem sum_Icc_one_two (f : ℕ → ℝ) :
    ∑ x ∈ Finset.Icc 1 2, f x = f 1 + f 2 := by
  rw [show Finset.Icc 1 2 = ({1, 2} : Finset ℕ) from by decide,
    Finset.sum_insert (by decide), Finset.sum_singleton]

/-- Helper: a sum over the one-bin range [1..1] is that bin. -/
theorem sum_Icc_one_one (f : ℕ → ℝ) :
    ∑ x ∈ Finset.Icc 1 1, f x = f 1 := by
  rw [Finset.Icc_self, Finset.sum_singleton]

/-- Counterexample to C2: on the 2x2 histogram with contents 1, 2, 3, 4, the
default (inverseX = inverseY = false) cumulative bin (1,1) is 10, the
integral of the whole histogram, not the integral from (1,1) to (1,1),
which is 1. -/
theorem cumulative_counterexample :
    (get_cumulative_histogram exCum false false).content 1 1 = 10 ∧
    integral2 exCum 1 1 1 1 = 1 ∧ (10 : ℝ) ≠ 1 := by
  have hfull : integral2 exCum 1 2 1 2 = 10 := by
    rw [integral2, sum_Icc_one_two, sum_Icc_one_two, sum_Icc_one_two]
    norm_num [exCum]
  refine ⟨?_, ?_, by norm_num⟩
  · have hbin : (get_cumulative_histogram exCum false false).content 1 1 =
        integral2 exCum 1 exCum.nx 1 exCum.ny := by
      simp [get_cumulative_histogram, exCum]
    rw [hbin]
    exact hfull
  · rw [integral2, sum_Icc_one_one, sum_Icc_one_one]
    norm_num [exCum]

/-- C2 amended: the cumulative histogram keeps the binning, and bin (bx,by)
holds the integral of the source from (bx,by) to (nx,ny) by default;
setting inverseX (resp. inverseY) changes the range on that axis to
[1..bx] (resp. [1..by]) instead, each flag acting independently. -/
theorem cumulative_amended (h : Hist2) (ix iy : Bool) (x y : ℕ)
    (hx1 : 1 ≤ x) (hx2 : x ≤ h.nx) (hy1 : 1 ≤ y) (hy2 : y ≤ h.ny) :
    (get_cumulative_histogram h ix iy).nx = h.nx ∧
    (get_cumulative_histogram h ix iy).ny = h.ny ∧
    (get_cumulative_histogram h ix iy).content x y =
      integral2 h (if ix then 1 else x) (if ix then x else h.nx)
        (if iy then 1 else y) (if iy then y else h.ny) := by
  refine ⟨rfl, rfl, ?_⟩
  cases ix <;> cases iy <;>
    simp [get_cumulative_histogram, hx1, hx2, hy1, hy2]

/-- Witness for the amended C2 at bin (2,1) of the concrete 2x2 histogram
with both flags false. -/
theorem cumulative_amended_witness :
    (get_cumulative_histogram exCum false false).content 2 1 =
      integral2 exCum 2 2 1 2 := by
  have g := cumulative_amended exCum false false 2 1 (by norm_num)
    (by norm_num [exCum]) (by norm_num) (by norm_num [exCum])
  simpa [exCum] using g.2.2

/-- C7: the p-value is 1 - igc(obs, exp) when obs > exp and igc(obs+1, exp)
otherwise; when p < 0.5 the significance is sqrt(2)*erfInverse(1 - 0.2p),
negated exactly when obs <= exp, and it is 0 when p >= 0.5. -/
theorem poisson_significance_spec (igc : ℝ → ℝ → ℝ) (erfinv : ℝ → ℝ)
    (obs expd : ℝ) :
    pvalue igc obs expd =
      (if obs > expd then 1 - igc obs expd else igc (obs + 1) expd) ∧
    (pvalue igc obs expd < 0.5 → obs > expd →
      poisson_significance igc erfinv obs expd =
        Real.sqrt 2 * erfinv (1 - 0.2 * pvalue igc obs expd)) ∧
    (pvalue igc obs expd < 0.5 → ¬ obs > expd →
      poisson_significance igc erfinv obs expd =
        -(Real.sqrt 2 * erfinv (1 - 0.2 * pvalue igc obs expd))) ∧
    (0.5 ≤ pvalue igc obs expd →
      poisson_significance igc erfinv obs expd = 0) := by
  refine ⟨rfl, ?_, ?_, ?_⟩
  · intro hp hob
    simp [poisson_significance, zvalue, hp, hob]
  · intro hp hob
    simp [poisson_significance, zvalue, hp, hob]
  · intro hp
    simp [poisson_significance, not_lt.mpr hp]

/-- Witness for C7 covering the three branches with constant stand-ins for
the incomplete gamma function and the identity for erfInverse. -/
theorem poisson_significance_spec_witness :
    poisson_significance igcA id 1 0 = Real.sqrt 2 * 0.98 ∧
    poisson_significance igcB id 0 1 = -(Real.sqrt 2 * 0.96) ∧
    poisson_significance igcC id 0 1 = 0 := by
  have hA : pvalue igcA 1 0 = 0.1 := by norm_num [pvalue, igcA]
  have hB : pvalue igcB 0 1 = 0.2 := by norm_num [pvalue, igcB]
  have hC : pvalue igcC 0 1 = 0.6 := by norm_num [pvalue, igcC]
  have g1 := (poisson_significance_spec igcA id 1 0).2.1
    (by rw [hA]; norm_num) (by norm_num)
  have g2 := (poisson_significance_spec igcB id 0 1).2.2.1
    (by rw [hB]; norm_num) (by norm_num)
  have g3 := (poisson_significance_spec igcC id 0 1).2.2.2 (by rw [hC]; norm_num)
  refine ⟨?_, ?_, g3⟩
  · rw [g1, hA]; norm_num [id_eq]
  · rw [g2, hB]; norm_num [id_eq]

/-- C8, evaluated at the failing input: on equal means 1.0 the source's
__ge__ and __le__ (which use the strict > and < on the means) both return
False, although the claimed mean comparisons 1 >= 1 and 1 <= 1 hold. -/
theorem comparator_strict_code_bug :
    ¬ vge ⟨1, 2⟩ ⟨1, 3⟩ ∧ ¬ vle ⟨1, 2⟩ ⟨1, 3⟩ ∧
    Value.mean ⟨1, 2⟩ ≥ Value.mean ⟨1, 3⟩ ∧
    Value.mean ⟨1, 2⟩ ≤ Value.mean ⟨1, 3⟩ := by
  refine ⟨?_, ?_, ?_, ?_⟩ <;> norm_num [vge, vle]

/-- Counterexample to C9: at mean -1 the source renders with the 4-decimal
format (it tests the signed mean against 0.01), while |(-1)| < 0.01 is
false, so the claim predicts the 2-decimal format. -/
theorem repr_decimals_counterexample :
    value_repr fmtA fmtB ⟨-1, 0⟩ = "A +- A" ∧
    ("A +- A" : String) ≠ "B +- B" ∧
    ¬ (|(-1 : ℝ)| < 0.01) := by
  have hlt : ((⟨-1, 0⟩ : Value)).mean < 0.01 := by norm_num
  refine ⟨?_, by decide, by norm_num⟩
  simp [value_repr, hlt, fmtA]

/-- C9 amended: the rendering is fmt(mean) ++ " +- " ++ fmt(error), using
the 4-decimal formatter exactly when the signed mean is < 0.01 (no absolute
value) and the 2-decimal formatter otherwise. -/
theorem repr_decimals_amended (fmt4 fmt2 : ℝ → String) (v : Value) :
    (v.mean < 0.01 →
      value_repr fmt4 fmt2 v = fmt4 v.mean ++ " +- " ++ fmt4 v.error) ∧
    (0.01 ≤ v.mean →
      value_repr fmt4 fmt2 v = fmt2 v.mean ++ " +- " ++ fmt2 v.error) := by
  constructor
  · intro hv
    simp [value_repr, hv]
  · intro hv
    simp [value_repr, not_lt.mpr hv]

/-- Witness for the amended C9 at means -5 (4-decimal branch) and 3
(2-decimal branch). -/
theorem repr_decimals_amended_witness :
    value_repr fmtA fmtB ⟨-5, 1⟩ = "A +- A" ∧
    value_repr fmtA fmtB ⟨3, 1⟩ = "B +- B" := by
  have g1 := (repr_decimals_amended fmtA fmtB ⟨-5, 1⟩).1 (by norm_num)
  have g2 := (repr_decimals_amended fmtA fmtB ⟨3, 1⟩).2 (by norm_num)
  exact ⟨g1.trans rfl, g2.trans rfl⟩

end Rootls
